import Mathlib

/-!
Verification of the tree-sitter Rust core (`src/lib/src_rust`) against its
natural-language specification.  The development shallowly embeds the data
model and the operations referenced by the claims: geometry (`point.rs`,
`length.rs`), the subtree union (`subtree.rs`), version comparison and tree
selection (`parser.rs`), stack-head merging (`stack.rs`), lexer included
ranges (`lexer.rs`) and changed-range accumulation (`get_changed_ranges.rs`).

Machine integers are modelled as `Nat` (or `Int` for signed fields).  Byte
counts and extents in the geometry are bounded by the document size in every
reachable state, so `u32` wrap-around is not modelled there; in
`ts_parser__compare_versions`, where the specification itself calls out the
possibility of a `u32` overflow in the cost product, the arithmetic is
modelled with an explicit `% 2^32` mirroring the wrap-around of the compiled
code.  Casts that the source performs (`as u8`, `as u16`, `& 0x0F`) are
modelled with explicit `%`.
-/

namespace TreeSitter

/-- Modulus of 32-bit unsigned arithmetic. -/
def U32_MOD : Nat := 2 ^ 32

/-- Largest `u32` value. -/
def U32_MAX : Nat := U32_MOD - 1

-- ---------------------------------------------------------------------------
-- Geometry: point.rs / length.rs
-- ---------------------------------------------------------------------------

/-- `TSPoint` from `point.rs`: row and byte-column, both `u32`. -/
structure TSPoint where
  row : Nat
  column : Nat
deriving Repr, DecidableEq

/-- `point_new` from `point.rs`. -/
def point_new (row column : Nat) : TSPoint := ⟨row, column⟩

/-- `point_add` from `point.rs`: a non-zero row delta resets the column. -/
def point_add (a b : TSPoint) : TSPoint :=
  if b.row > 0 then point_new (a.row + b.row) b.column
  else point_new a.row (a.column + b.column)

/-- `Length` from `length.rs`: byte count plus row/column extent. -/
structure Length where
  bytes : Nat
  extent : TSPoint
deriving Repr, DecidableEq

/-- `length_zero` from `length.rs`. -/
def length_zero : Length := ⟨0, ⟨0, 0⟩⟩

/-- `length_add` from `length.rs`. -/
def length_add (len1 len2 : Length) : Length :=
  ⟨len1.bytes + len2.bytes, point_add len1.extent len2.extent⟩

-- ---------------------------------------------------------------------------
-- Constants: error_costs.rs, subtree.rs, parser.rs
-- ---------------------------------------------------------------------------

/-- `ERROR_COST_PER_RECOVERY` from `error_costs.rs`. -/
def ERROR_COST_PER_RECOVERY : Nat := 500

/-- `ERROR_COST_PER_MISSING_TREE` from `error_costs.rs`. -/
def ERROR_COST_PER_MISSING_TREE : Nat := 110

/-- `ERROR_COST_PER_SKIPPED_TREE` from `error_costs.rs`. -/
def ERROR_COST_PER_SKIPPED_TREE : Nat := 100

/-- `ERROR_COST_PER_SKIPPED_LINE` from `error_costs.rs`. -/
def ERROR_COST_PER_SKIPPED_LINE : Nat := 30

/-- `ERROR_COST_PER_SKIPPED_CHAR` from `error_costs.rs`. -/
def ERROR_COST_PER_SKIPPED_CHAR : Nat := 1

/-- `MAX_COST_DIFFERENCE = 18 * ERROR_COST_PER_SKIPPED_TREE` from `parser.rs`. -/
def MAX_COST_DIFFERENCE : Nat := 18 * ERROR_COST_PER_SKIPPED_TREE

/-- `ts_builtin_sym_end` from `subtree.rs` (symbols are `u16`). -/
def ts_builtin_sym_end : Nat := 0

/-- `ts_builtin_sym_error = u16::MAX` from `subtree.rs`. -/
def ts_builtin_sym_error : Nat := 65535

/-- `ts_builtin_sym_error_repeat = ts_builtin_sym_error - 1` from `subtree.rs`. -/
def ts_builtin_sym_error_repeat : Nat := ts_builtin_sym_error - 1

/-- `TS_MAX_INLINE_TREE_LENGTH = u8::MAX` from `subtree.rs`. -/
def TS_MAX_INLINE_TREE_LENGTH : Nat := 255

/-- `TS_TREE_STATE_NONE = u16::MAX` from `subtree.rs`. -/
def TS_TREE_STATE_NONE : Nat := 65535

-- ---------------------------------------------------------------------------
-- Language model: the read-only grammar-table surface used by subtree.rs
-- ---------------------------------------------------------------------------

/-- `TSSymbolMetadata` from `subtree.rs` / parser.h. -/
structure TSSymbolMetadata where
  visible : Bool
  named : Bool
  supertype : Bool
deriving Repr, DecidableEq

/-- The read-only part of `TSLanguage` that the embedded subtree operations
consult: the per-symbol metadata table and the alias-sequence table
(`alias_sequences[production_id * max_alias_sequence_length + index]`,
modelled as a curried function that is `0` where the table is `0`). -/
structure TSLanguage where
  symbol_metadata : Nat → TSSymbolMetadata
  alias_sequences : Nat → Nat → Nat

/-- `ts_language_symbol_metadata` from `language.rs`: ERROR is visible and
named, ERROR_REPEAT is hidden, all other symbols use the table. -/
def ts_language_symbol_metadata (language : TSLanguage) (symbol : Nat) :
    TSSymbolMetadata :=
  if symbol = ts_builtin_sym_error then
    ⟨true, true, false⟩
  else if symbol = ts_builtin_sym_error_repeat then
    ⟨false, false, false⟩
  else
    language.symbol_metadata symbol

/-- `language_alias_sequence` from `subtree.rs`: null when `production_id`
is zero, otherwise the row of the alias table for that production. -/
def language_alias_sequence (language : TSLanguage) (production_id : Nat) :
    Option (Nat → Nat) :=
  if production_id ≠ 0 then some (language.alias_sequences production_id)
  else none

-- ---------------------------------------------------------------------------
-- Subtree data model: subtree.rs
-- ---------------------------------------------------------------------------

/-- `SubtreeInlineData` from `subtree.rs`, with the packed flag byte and the
packed rows/lookahead nibbles expanded into fields.  The `is_inline` bit
is represented by the `Subtree.inline` constructor tag. -/
structure SubtreeInlineData where
  visible : Bool
  named : Bool
  extra : Bool
  has_changes : Bool
  is_missing : Bool
  is_keyword : Bool
  symbol : Nat
  parse_state : Nat
  padding_columns : Nat
  padding_rows : Nat
  lookahead_bytes : Nat
  padding_bytes : Nat
  size_bytes : Nat
deriving Repr, DecidableEq

/-- The scalar fields of `SubtreeHeapData` from `subtree.rs` (the `ref_count`
is memory management and is not part of the value model; `child_count` is
represented by the length of the children list in the body). -/
structure SubtreeHeapFields where
  padding : Length
  size : Length
  lookahead_bytes : Nat
  error_cost : Nat
  symbol : Nat
  parse_state : Nat
  visible : Bool
  named : Bool
  extra : Bool
  fragile_left : Bool
  fragile_right : Bool
  has_changes : Bool
  has_external_tokens : Bool
  has_external_scanner_state_change : Bool
  depends_on_column : Bool
  is_missing : Bool
  is_keyword : Bool
deriving Repr, DecidableEq

/-- `SubtreeChildrenData` from `subtree.rs` (the children-body header;
`first_leaf` is flattened into two fields). -/
structure SubtreeChildrenData where
  visible_child_count : Nat
  named_child_count : Nat
  visible_descendant_count : Nat
  dynamic_precedence : Int
  repeat_depth : Nat
  production_id : Nat
  first_leaf_symbol : Nat
  first_leaf_parse_state : Nat
deriving Repr, DecidableEq

/-- The zero-initialized children body that `ts_subtree_new_leaf` and
`ts_subtree_new_node` write before summarization. -/
def emptyChildrenData : SubtreeChildrenData :=
  ⟨0, 0, 0, 0, 0, 0, 0, 0⟩

/-- `Subtree` from `subtree.rs`: the tagged union of the inline
representation and the heap representation; the heap body union
(`SubtreeHeapDataContent`) is expanded into the three constructors for
its three members (children array, external scanner state, lookahead
character).  The external scanner state is its byte buffer. -/
inductive Subtree where
  | inline (data : SubtreeInlineData)
  | heapChildren (fields : SubtreeHeapFields) (info : SubtreeChildrenData)
      (children : List Subtree)
  | heapScannerState (fields : SubtreeHeapFields) (state : List Nat)
  | heapLookaheadChar (fields : SubtreeHeapFields) (lookahead_char : Int)

/-- The `is_inline` tag bit of a subtree value. -/
def Subtree.is_inline : Subtree → Bool
  | .inline _ => true
  | _ => false

/-- `ts_subtree_symbol` from `subtree.rs`. -/
def ts_subtree_symbol : Subtree → Nat
  | .inline d => d.symbol
  | .heapChildren f _ _ => f.symbol
  | .heapScannerState f _ => f.symbol
  | .heapLookaheadChar f _ => f.symbol

/-- `ts_subtree_children` from `subtree.rs` (the children array; empty for
inline nodes and for heap nodes whose body is not a children body). -/
def ts_subtree_children : Subtree → List Subtree
  | .heapChildren _ _ children => children
  | _ => []

/-- `ts_subtree_child_count` from `subtree.rs`. -/
def ts_subtree_child_count : Subtree → Nat
  | .heapChildren _ _ children => children.length
  | _ => 0

/-- `ts_subtree_extra` from `subtree.rs`. -/
def ts_subtree_extra : Subtree → Bool
  | .inline d => d.extra
  | .heapChildren f _ _ => f.extra
  | .heapScannerState f _ => f.extra
  | .heapLookaheadChar f _ => f.extra

/-- `ts_subtree_missing` from `subtree.rs`. -/
def ts_subtree_missing : Subtree → Bool
  | .inline d => d.is_missing
  | .heapChildren f _ _ => f.is_missing
  | .heapScannerState f _ => f.is_missing
  | .heapLookaheadChar f _ => f.is_missing

/-- `ts_subtree_visible` from `subtree.rs`. -/
def ts_subtree_visible : Subtree → Bool
  | .inline d => d.visible
  | .heapChildren f _ _ => f.visible
  | .heapScannerState f _ => f.visible
  | .heapLookaheadChar f _ => f.visible

/-- `ts_subtree_named` from `subtree.rs`. -/
def ts_subtree_named : Subtree → Bool
  | .inline d => d.named
  | .heapChildren f _ _ => f.named
  | .heapScannerState f _ => f.named
  | .heapLookaheadChar f _ => f.named

/-- `ts_subtree_parse_state` from `subtree.rs`. -/
def ts_subtree_parse_state : Subtree → Nat
  | .inline d => d.parse_state
  | .heapChildren f _ _ => f.parse_state
  | .heapScannerState f _ => f.parse_state
  | .heapLookaheadChar f _ => f.parse_state

/-- `ts_subtree_lookahead_bytes` from `subtree.rs`. -/
def ts_subtree_lookahead_bytes : Subtree → Nat
  | .inline d => d.lookahead_bytes
  | .heapChildren f _ _ => f.lookahead_bytes
  | .heapScannerState f _ => f.lookahead_bytes
  | .heapLookaheadChar f _ => f.lookahead_bytes

/-- `ts_subtree_padding` from `subtree.rs`: inline nodes reconstruct the
length from the packed byte/row/column fields. -/
def ts_subtree_padding : Subtree → Length
  | .inline d => ⟨d.padding_bytes, ⟨d.padding_rows, d.padding_columns⟩⟩
  | .heapChildren f _ _ => f.padding
  | .heapScannerState f _ => f.padding
  | .heapLookaheadChar f _ => f.padding

/-- `ts_subtree_size` from `subtree.rs`: an inline node's size extent is one
row-less run of `size_bytes` columns. -/
def ts_subtree_size : Subtree → Length
  | .inline d => ⟨d.size_bytes, ⟨0, d.size_bytes⟩⟩
  | .heapChildren f _ _ => f.size
  | .heapScannerState f _ => f.size
  | .heapLookaheadChar f _ => f.size

/-- `ts_subtree_total_size` from `subtree.rs`. -/
def ts_subtree_total_size (self_ : Subtree) : Length :=
  length_add (ts_subtree_padding self_) (ts_subtree_size self_)

/-- `ts_subtree_total_bytes` from `subtree.rs`. -/
def ts_subtree_total_bytes (self_ : Subtree) : Nat :=
  (ts_subtree_total_size self_).bytes

/-- `ts_subtree_error_cost` from `subtree.rs`: a missing node costs
`ERROR_COST_PER_MISSING_TREE + ERROR_COST_PER_RECOVERY`, an inline node
is free, a heap node carries its stored cost. -/
def ts_subtree_error_cost (self_ : Subtree) : Nat :=
  if ts_subtree_missing self_ then
    ERROR_COST_PER_MISSING_TREE + ERROR_COST_PER_RECOVERY
  else
    match self_ with
    | .inline _ => 0
    | .heapChildren f _ _ => f.error_cost
    | .heapScannerState f _ => f.error_cost
    | .heapLookaheadChar f _ => f.error_cost

/-- `ts_subtree_dynamic_precedence` from `subtree.rs`: zero for inline nodes
and childless heap nodes. -/
def ts_subtree_dynamic_precedence : Subtree → Int
  | .heapChildren _ info children =>
      if children.length = 0 then 0 else info.dynamic_precedence
  | _ => 0

/-- `ts_subtree_repeat_depth` from `subtree.rs` (reads the children body). -/
def ts_subtree_repeat_depth : Subtree → Nat
  | .inline _ => 0
  | .heapChildren _ info _ => info.repeat_depth
  | .heapScannerState _ _ => 0
  | .heapLookaheadChar _ _ => 0

/-- `ts_subtree_fragile_left` from `subtree.rs`. -/
def ts_subtree_fragile_left : Subtree → Bool
  | .inline _ => false
  | .heapChildren f _ _ => f.fragile_left
  | .heapScannerState f _ => f.fragile_left
  | .heapLookaheadChar f _ => f.fragile_left

/-- `ts_subtree_fragile_right` from `subtree.rs`. -/
def ts_subtree_fragile_right : Subtree → Bool
  | .inline _ => false
  | .heapChildren f _ _ => f.fragile_right
  | .heapScannerState f _ => f.fragile_right
  | .heapLookaheadChar f _ => f.fragile_right

/-- `ts_subtree_has_external_tokens` from `subtree.rs`. -/
def ts_subtree_has_external_tokens : Subtree → Bool
  | .inline _ => false
  | .heapChildren f _ _ => f.has_external_tokens
  | .heapScannerState f _ => f.has_external_tokens
  | .heapLookaheadChar f _ => f.has_external_tokens

/-- `ts_subtree_has_external_scanner_state_change` from `subtree.rs`. -/
def ts_subtree_has_external_scanner_state_change : Subtree → Bool
  | .inline _ => false
  | .heapChildren f _ _ => f.has_external_scanner_state_change
  | .heapScannerState f _ => f.has_external_scanner_state_change
  | .heapLookaheadChar f _ => f.has_external_scanner_state_change

/-- `ts_subtree_depends_on_column` from `subtree.rs`. -/
def ts_subtree_depends_on_column : Subtree → Bool
  | .inline _ => false
  | .heapChildren f _ _ => f.depends_on_column
  | .heapScannerState f _ => f.depends_on_column
  | .heapLookaheadChar f _ => f.depends_on_column

/-- `ts_subtree_is_error` from `subtree.rs`. -/
def ts_subtree_is_error (self_ : Subtree) : Bool :=
  ts_subtree_symbol self_ == ts_builtin_sym_error

/-- `ts_subtree_leaf_symbol` from `subtree.rs`. -/
def ts_subtree_leaf_symbol : Subtree → Nat
  | .inline d => d.symbol
  | .heapChildren f info children =>
      if children.length = 0 then f.symbol else info.first_leaf_symbol
  | .heapScannerState f _ => f.symbol
  | .heapLookaheadChar f _ => f.symbol

/-- `ts_subtree_leaf_parse_state` from `subtree.rs`. -/
def ts_subtree_leaf_parse_state : Subtree → Nat
  | .inline d => d.parse_state
  | .heapChildren f info children =>
      if children.length = 0 then f.parse_state else info.first_leaf_parse_state
  | .heapScannerState f _ => f.parse_state
  | .heapLookaheadChar f _ => f.parse_state

/-- The children-body `visible_child_count` of a heap node (the direct union
read `(*child.ptr).data.children.visible_child_count` that
`ts_subtree_summarize_children` performs on children known to have
grandchildren). -/
def Subtree.children_visible_child_count : Subtree → Nat
  | .heapChildren _ info _ => info.visible_child_count
  | _ => 0

/-- The children-body `named_child_count` of a heap node (direct union read,
as above). -/
def Subtree.children_named_child_count : Subtree → Nat
  | .heapChildren _ info _ => info.named_child_count
  | _ => 0

/-- `ts_subtree_visible_descendant_count` from `subtree.rs`. -/
def ts_subtree_visible_descendant_count : Subtree → Nat
  | .heapChildren _ info children =>
      if children.length = 0 then 0 else info.visible_descendant_count
  | _ => 0

-- ---------------------------------------------------------------------------
-- Subtree construction: subtree.rs
-- ---------------------------------------------------------------------------

/-- `ts_subtree_can_inline` from `subtree.rs`. -/
def ts_subtree_can_inline (padding size : Length) (lookahead_bytes : Nat) : Bool :=
  padding.bytes < TS_MAX_INLINE_TREE_LENGTH
    && padding.extent.row < 16
    && padding.extent.column < TS_MAX_INLINE_TREE_LENGTH
    && size.bytes < TS_MAX_INLINE_TREE_LENGTH
    && size.extent.row == 0
    && size.extent.column < TS_MAX_INLINE_TREE_LENGTH
    && lookahead_bytes < 16

/-- `ts_subtree_new_leaf` from `subtree.rs`.  The `pool` parameter of the
source is an allocation cache and has no effect on the produced value.
The truncating casts of the inline branch (`as u8`, `& 0x0F`) are modelled
with `%`; they are the identity under the `ts_subtree_can_inline` guard. -/
def ts_subtree_new_leaf (symbol : Nat) (padding size : Length)
    (lookahead_bytes parse_state : Nat)
    (has_external_tokens depends_on_column is_keyword : Bool)
    (language : TSLanguage) : Subtree :=
  let metadata := ts_language_symbol_metadata language symbol
  let extra := symbol == ts_builtin_sym_end
  let is_inline := symbol ≤ 255
    && !has_external_tokens
    && ts_subtree_can_inline padding size lookahead_bytes
  if is_inline then
    .inline {
      visible := metadata.visible
      named := metadata.named
      extra := extra
      has_changes := false
      is_missing := false
      is_keyword := is_keyword
      symbol := symbol % 256
      parse_state := parse_state
      padding_columns := padding.extent.column % 256
      padding_rows := padding.extent.row % 16
      lookahead_bytes := lookahead_bytes % 16
      padding_bytes := padding.bytes % 256
      size_bytes := size.bytes % 256
    }
  else
    .heapChildren {
      padding := padding
      size := size
      lookahead_bytes := lookahead_bytes
      error_cost := 0
      symbol := symbol
      parse_state := parse_state
      visible := metadata.visible
      named := metadata.named
      extra := extra
      fragile_left := false
      fragile_right := false
      has_changes := false
      has_external_tokens := has_external_tokens
      has_external_scanner_state_change := false
      depends_on_column := depends_on_column
      is_missing := false
      is_keyword := is_keyword
    } emptyChildrenData []

/-- `ts_subtree_new_error` from `subtree.rs`: an ERROR leaf via
`ts_subtree_new_leaf`, then both fragile bits set and the lookahead
character recorded in the body union.  The ERROR symbol exceeds the
inline bound, so the leaf is always on the heap; the catch-all branch is
unreachable. -/
def ts_subtree_new_error (lookahead_char : Int) (padding size : Length)
    (bytes_scanned parse_state : Nat) (language : TSLanguage) : Subtree :=
  match ts_subtree_new_leaf ts_builtin_sym_error padding size bytes_scanned
      parse_state false false false language with
  | .heapChildren f _ _ =>
      .heapLookaheadChar
        { f with fragile_left := true, fragile_right := true } lookahead_char
  | t => t

/-- `ts_subtree_new_missing_leaf` from `subtree.rs`: a zero-size leaf with
`is_missing` set on whichever representation `ts_subtree_new_leaf`
chose. -/
def ts_subtree_new_missing_leaf (symbol : Nat) (padding : Length)
    (lookahead_bytes : Nat) (language : TSLanguage) : Subtree :=
  match ts_subtree_new_leaf symbol padding length_zero lookahead_bytes 0
      false false false language with
  | .inline d => .inline { d with is_missing := true }
  | .heapChildren f info children =>
      .heapChildren { f with is_missing := true } info children
  | .heapScannerState f st => .heapScannerState { f with is_missing := true } st
  | .heapLookaheadChar f c => .heapLookaheadChar { f with is_missing := true } c

-- ---------------------------------------------------------------------------
-- Child summarization: ts_subtree_summarize_children from subtree.rs
-- ---------------------------------------------------------------------------

/-- The accumulator of the `ts_subtree_summarize_children` loop: the fields
of the node that the loop mutates, plus the two loop-local variables
`structural_index` and `lookahead_end_byte`. -/
structure SummarizeAcc where
  padding : Length
  size : Length
  error_cost : Nat
  lookahead_end_byte : Nat
  structural_index : Nat
  named_child_count : Nat
  visible_child_count : Nat
  visible_descendant_count : Nat
  dynamic_precedence : Int
  depends_on_column : Bool
  has_external_scanner_state_change : Bool
  has_external_tokens : Bool
  fragile_left : Bool
  fragile_right : Bool
  parse_state : Nat
deriving Repr, DecidableEq

/-- One iteration of the `ts_subtree_summarize_children` loop over one child,
in source order.  `isFirst` is the `i == 0` test; `selfSymbol` is the
summarized node's symbol; `aliasSequence` is `language_alias_sequence` of
its production. -/
def summarize_child_step (language : TSLanguage) (selfSymbol : Nat)
    (aliasSequence : Option (Nat → Nat)) (isFirst : Bool)
    (acc : SummarizeAcc) (child : Subtree) : SummarizeAcc :=
  let acc := if acc.size.extent.row = 0 && ts_subtree_depends_on_column child then
      { acc with depends_on_column := true }
    else acc
  let acc := if ts_subtree_has_external_scanner_state_change child then
      { acc with has_external_scanner_state_change := true }
    else acc
  let acc := if isFirst then
      { acc with padding := ts_subtree_padding child, size := ts_subtree_size child }
    else
      { acc with size := length_add acc.size (ts_subtree_total_size child) }
  let child_lookahead_end_byte :=
    acc.padding.bytes + acc.size.bytes + ts_subtree_lookahead_bytes child
  let acc := if child_lookahead_end_byte > acc.lookahead_end_byte then
      { acc with lookahead_end_byte := child_lookahead_end_byte }
    else acc
  let acc := if ts_subtree_symbol child ≠ ts_builtin_sym_error_repeat then
      { acc with error_cost := acc.error_cost + ts_subtree_error_cost child }
    else acc
  let grandchild_count := ts_subtree_child_count child
  let acc :=
    if selfSymbol = ts_builtin_sym_error ∨ selfSymbol = ts_builtin_sym_error_repeat then
      if !ts_subtree_extra child
          && !(ts_subtree_is_error child && grandchild_count = 0) then
        if ts_subtree_visible child then
          { acc with error_cost := acc.error_cost + ERROR_COST_PER_SKIPPED_TREE }
        else if grandchild_count > 0 then
          { acc with error_cost := acc.error_cost +
              ERROR_COST_PER_SKIPPED_TREE * child.children_visible_child_count }
        else acc
      else acc
    else acc
  let acc := { acc with
    dynamic_precedence := acc.dynamic_precedence + ts_subtree_dynamic_precedence child
    visible_descendant_count :=
      acc.visible_descendant_count + ts_subtree_visible_descendant_count child }
  let aliasSymbol := match aliasSequence with
    | some seq => seq acc.structural_index
    | none => 0
  let acc :=
    if !ts_subtree_extra child && ts_subtree_symbol child ≠ 0
        && aliasSequence.isSome && aliasSymbol ≠ 0 then
      { acc with
        visible_descendant_count := acc.visible_descendant_count + 1
        visible_child_count := acc.visible_child_count + 1
        named_child_count := acc.named_child_count +
          (if (ts_language_symbol_metadata language aliasSymbol).named then 1 else 0) }
    else if ts_subtree_visible child then
      { acc with
        visible_descendant_count := acc.visible_descendant_count + 1
        visible_child_count := acc.visible_child_count + 1
        named_child_count := acc.named_child_count +
          (if ts_subtree_named child then 1 else 0) }
    else if grandchild_count > 0 then
      { acc with
        visible_child_count :=
          acc.visible_child_count + child.children_visible_child_count
        named_child_count :=
          acc.named_child_count + child.children_named_child_count }
    else acc
  let acc := if ts_subtree_has_external_tokens child then
      { acc with has_external_tokens := true }
    else acc
  let acc := if ts_subtree_is_error child then
      { acc with
        fragile_left := true
        fragile_right := true
        parse_state := TS_TREE_STATE_NONE }
    else acc
  if !ts_subtree_extra child then
    { acc with structural_index := acc.structural_index + 1 }
  else acc

/-- The `ts_subtree_summarize_children` loop over the whole children list;
`isFirst` is true exactly for the first invocation. -/
def summarize_go (language : TSLanguage) (selfSymbol : Nat)
    (aliasSequence : Option (Nat → Nat)) (isFirst : Bool)
    (acc : SummarizeAcc) : List Subtree → SummarizeAcc
  | [] => acc
  | child :: rest =>
      summarize_go language selfSymbol aliasSequence false
        (summarize_child_step language selfSymbol aliasSequence isFirst acc child)
        rest

/-- The accumulator at entry of the `ts_subtree_summarize_children` loop: the
reset block before the loop zeroes the counts and flags it recomputes,
while padding, size, the fragile bits and the parse state keep the node's
current values. -/
def summarize_acc_init (f : SubtreeHeapFields) : SummarizeAcc := {
  padding := f.padding
  size := f.size
  error_cost := 0
  lookahead_end_byte := 0
  structural_index := 0
  named_child_count := 0
  visible_child_count := 0
  visible_descendant_count := 0
  dynamic_precedence := 0
  depends_on_column := false
  has_external_scanner_state_change := false
  has_external_tokens := false
  fragile_left := f.fragile_left
  fragile_right := f.fragile_right
  parse_state := f.parse_state
}

/-- `ts_subtree_summarize_children` from `subtree.rs`, as a function from the
heap node's current fields, children body and children list to the
summarized node.  All field writes of the source are reproduced: the
reset block before the loop, the per-child loop (`summarize_go`), the
lookahead/error-cost epilogue, and the first-leaf / fragile / repeat-depth
block for nodes with children. -/
def ts_subtree_summarize_children (f : SubtreeHeapFields)
    (info : SubtreeChildrenData) (children : List Subtree)
    (language : TSLanguage) : Subtree :=
  let aliasSequence := language_alias_sequence language info.production_id
  let acc := summarize_go language f.symbol aliasSequence true
    (summarize_acc_init f) children
  let lookahead_bytes := acc.lookahead_end_byte - acc.size.bytes - acc.padding.bytes
  let error_cost :=
    if f.symbol = ts_builtin_sym_error ∨ f.symbol = ts_builtin_sym_error_repeat then
      acc.error_cost + ERROR_COST_PER_RECOVERY
        + ERROR_COST_PER_SKIPPED_CHAR * acc.size.bytes
        + ERROR_COST_PER_SKIPPED_LINE * acc.size.extent.row
    else acc.error_cost
  match children.head?, children.getLast? with
  | some first_child, some last_child =>
      let repeat_depth :=
        if 2 ≤ children.length && !f.visible && !f.named
            && ts_subtree_symbol first_child == f.symbol then
          (if ts_subtree_repeat_depth first_child > ts_subtree_repeat_depth last_child
           then ts_subtree_repeat_depth first_child + 1
           else ts_subtree_repeat_depth last_child + 1) % 65536
        else 0
      .heapChildren
        { f with
          padding := acc.padding
          size := acc.size
          lookahead_bytes := lookahead_bytes
          error_cost := error_cost
          parse_state := acc.parse_state
          depends_on_column := acc.depends_on_column
          has_external_scanner_state_change := acc.has_external_scanner_state_change
          has_external_tokens := acc.has_external_tokens
          fragile_left := acc.fragile_left || ts_subtree_fragile_left first_child
          fragile_right := acc.fragile_right || ts_subtree_fragile_right last_child }
        { info with
          visible_child_count := acc.visible_child_count
          named_child_count := acc.named_child_count
          visible_descendant_count := acc.visible_descendant_count
          dynamic_precedence := acc.dynamic_precedence
          repeat_depth := repeat_depth
          first_leaf_symbol := ts_subtree_leaf_symbol first_child
          first_leaf_parse_state := ts_subtree_leaf_parse_state first_child }
        children
  | _, _ =>
      .heapChildren
        { f with
          padding := acc.padding
          size := acc.size
          lookahead_bytes := lookahead_bytes
          error_cost := error_cost
          parse_state := acc.parse_state
          depends_on_column := acc.depends_on_column
          has_external_scanner_state_change := acc.has_external_scanner_state_change
          has_external_tokens := acc.has_external_tokens
          fragile_left := acc.fragile_left
          fragile_right := acc.fragile_right }
        { info with
          visible_child_count := acc.visible_child_count
          named_child_count := acc.named_child_count
          visible_descendant_count := acc.visible_descendant_count
          dynamic_precedence := acc.dynamic_precedence
          repeat_depth := 0 }
        children

/-- `ts_subtree_new_node` from `subtree.rs`: a fresh heap header (fragile on
both sides for ERROR / ERROR_REPEAT) placed over the children array,
then summarized.  The allocation-reuse mechanics of the source are memory
management and do not affect the value. -/
def ts_subtree_new_node (symbol : Nat) (children : List Subtree)
    (production_id : Nat) (language : TSLanguage) : Subtree :=
  let metadata := ts_language_symbol_metadata language symbol
  let fragile := symbol == ts_builtin_sym_error || symbol == ts_builtin_sym_error_repeat
  ts_subtree_summarize_children
    { padding := length_zero
      size := length_zero
      lookahead_bytes := 0
      error_cost := 0
      symbol := symbol
      parse_state := 0
      visible := metadata.visible
      named := metadata.named
      extra := false
      fragile_left := fragile
      fragile_right := fragile
      has_changes := false
      has_external_tokens := false
      has_external_scanner_state_change := false
      depends_on_column := false
      is_missing := false
      is_keyword := false }
    { emptyChildrenData with production_id := production_id % 65536 }
    children language

-- ---------------------------------------------------------------------------
-- Structural comparison: ts_subtree_compare from subtree.rs
-- ---------------------------------------------------------------------------

theorem sizeOf_subtree_pos (t : Subtree) : 0 < sizeOf t := by
  cases t <;> simp

theorem sum_map_sizeOf_lt_sizeOf (cs : List Subtree) :
    (cs.map sizeOf).sum < sizeOf cs := by
  induction cs with
  | nil => simp
  | cons a as ih =>
      simp only [List.map_cons, List.sum_cons, List.cons.sizeOf_spec]
      omega

theorem children_sum_sizeOf_lt (t : Subtree) :
    ((ts_subtree_children t).map sizeOf).sum < sizeOf t := by
  cases t with
  | heapChildren f info cs =>
      have h := sum_map_sizeOf_lt_sizeOf cs
      simp only [ts_subtree_children, Subtree.heapChildren.sizeOf_spec]
      omega
  | inline d => simp [ts_subtree_children]
  | heapScannerState f st => simp [ts_subtree_children]
  | heapLookaheadChar f c => simp [ts_subtree_children]

theorem zip_sum_sizeOf_le (as bs : List Subtree) :
    ((as.zip bs).map (fun p => sizeOf p.1 + sizeOf p.2)).sum ≤
      (as.map sizeOf).sum + (bs.map sizeOf).sum := by
  induction as generalizing bs with
  | nil => simp
  | cons a as ih =>
      cases bs with
      | nil => simp
      | cons b bs =>
          have h := ih bs
          simp only [List.zip_cons_cons, List.map_cons, List.sum_cons]
          omega

/-- The per-node comparison chain of `ts_subtree_compare` from `subtree.rs`:
symbol ascending, then child count ascending. -/
def compare_root (left right : Subtree) : Int :=
  if ts_subtree_symbol left < ts_subtree_symbol right then -1
  else if ts_subtree_symbol right < ts_subtree_symbol left then 1
  else if ts_subtree_child_count left < ts_subtree_child_count right then -1
  else if ts_subtree_child_count right < ts_subtree_child_count left then 1
  else 0

/-- The `while` loop of `ts_subtree_compare` from `subtree.rs` over the
`tree_stack` worklist of pending pairs.  The source pushes the child
pairs of a tied pair at indices `count-1` down to `0` (left child, then
right child, at each index) onto a LIFO stack and pops two trees at a
time, so the pair at index 0 is processed next: on the pair-list model
(head = top of stack) the zipped children are prepended in index
order. -/
def ts_subtree_compare_loop : List (Subtree × Subtree) → Int
  | [] => 0
  | (left, right) :: rest =>
      let result := compare_root left right
      if result ≠ 0 then result
      else
        ts_subtree_compare_loop
          ((ts_subtree_children left).zip (ts_subtree_children right) ++ rest)
termination_by stack => (stack.map (fun p => sizeOf p.1 + sizeOf p.2)).sum
decreasing_by
  have h := zip_sum_sizeOf_le (ts_subtree_children left) (ts_subtree_children right)
  have h1 := children_sum_sizeOf_lt left
  have h2 := children_sum_sizeOf_lt right
  simp only [List.map_append, List.sum_append, List.map_cons, List.sum_cons]
  omega

/-- `ts_subtree_compare` from `subtree.rs` (the `pool` argument of the source
only supplies the scratch worklist and does not influence the result). -/
def ts_subtree_compare (left right : Subtree) : Int :=
  ts_subtree_compare_loop [(left, right)]

mutual

/-- Recursive lexicographic subtree ordering: compare the roots with
`compare_root` (symbol ascending, then child count ascending) and, on a
tie, compare the zipped children lists pairwise, first difference wins.
`rev = true` compares the last child pair first, which is the order the
specification claims; `rev = false` compares the first child pair
first. -/
def subtree_compare_lex (rev : Bool) (left right : Subtree) : Int :=
  let c := compare_root left right
  if c ≠ 0 then c
  else
    let pairs := (ts_subtree_children left).zip (ts_subtree_children right)
    subtree_compare_lex_list rev (if rev then pairs.reverse else pairs)
termination_by (sizeOf left + sizeOf right, 0)
decreasing_by
  apply Prod.Lex.left
  have h := zip_sum_sizeOf_le (ts_subtree_children left) (ts_subtree_children right)
  have h1 := children_sum_sizeOf_lt left
  have h2 := children_sum_sizeOf_lt right
  split
  · simp only [List.map_reverse, List.sum_reverse]
    omega
  · omega

/-- First non-zero `subtree_compare_lex` result over a list of pairs. -/
def subtree_compare_lex_list (rev : Bool) : List (Subtree × Subtree) → Int
  | [] => 0
  | p :: rest =>
      let c := subtree_compare_lex rev p.1 p.2
      if c ≠ 0 then c else subtree_compare_lex_list rev rest
termination_by stack => ((stack.map (fun p => sizeOf p.1 + sizeOf p.2)).sum, 1)
decreasing_by
  · rw [Prod.lex_def]
    simp only [List.map_cons, List.sum_cons]
    omega
  · rw [Prod.lex_def]
    simp only [List.map_cons, List.sum_cons]
    have h1 := sizeOf_subtree_pos p.1
    have h2 := sizeOf_subtree_pos p.2
    omega

end

-- ---------------------------------------------------------------------------
-- Tree selection: ts_parser__select_tree from parser.rs
-- ---------------------------------------------------------------------------

/-- `ts_parser__select_tree` from `parser.rs`.  A `Subtree` whose pointer is
null is modelled as `none`.  Logging does not affect the result. -/
def ts_parser__select_tree : Option Subtree → Option Subtree → Bool
  | none, _ => true
  | some _, none => false
  | some l, some r =>
      if ts_subtree_error_cost r < ts_subtree_error_cost l then true
      else if ts_subtree_error_cost l < ts_subtree_error_cost r then false
      else if ts_subtree_dynamic_precedence r > ts_subtree_dynamic_precedence l then true
      else if ts_subtree_dynamic_precedence l > ts_subtree_dynamic_precedence r then false
      else if ts_subtree_error_cost l > 0 then true
      else
        match ts_subtree_compare l r with
        | -1 => false
        | 1 => true
        | _ => false

-- ---------------------------------------------------------------------------
-- Version comparison: ts_parser__compare_versions from parser.rs
-- ---------------------------------------------------------------------------

/-- `ErrorComparison` from `parser.rs`. -/
inductive ErrorComparison where
  | None
  | PreferLeft
  | PreferRight
  | TakeLeft
  | TakeRight
deriving Repr, DecidableEq

/-- `ErrorStatus` from `parser.rs` (`cost` and `node_count` are `u32`,
`dynamic_precedence` is signed). -/
structure ErrorStatus where
  cost : Nat
  node_count : Nat
  dynamic_precedence : Int
  is_in_error : Bool
deriving Repr, DecidableEq

/-- `ts_parser__compare_versions` from `parser.rs`.  The `u32` products
`(b.cost - a.cost) * (1 + a.node_count)` are computed with wrap-around,
modelled by the explicit `% U32_MOD`; the subtractions are guarded by the
strict comparisons and never wrap.  The early returns of the source are
the nested else-branches. -/
def ts_parser__compare_versions (a b : ErrorStatus) : ErrorComparison :=
  if !a.is_in_error && b.is_in_error then
    if a.cost < b.cost then .TakeLeft else .PreferLeft
  else if a.is_in_error && !b.is_in_error then
    if b.cost < a.cost then .TakeRight else .PreferRight
  else if a.cost < b.cost then
    if ((b.cost - a.cost) * ((1 + a.node_count) % U32_MOD)) % U32_MOD
        > MAX_COST_DIFFERENCE then .TakeLeft
    else .PreferLeft
  else if b.cost < a.cost then
    if ((a.cost - b.cost) * ((1 + b.node_count) % U32_MOD)) % U32_MOD
        > MAX_COST_DIFFERENCE then .TakeRight
    else .PreferRight
  else if a.dynamic_precedence > b.dynamic_precedence then .PreferLeft
  else if b.dynamic_precedence > a.dynamic_precedence then .PreferRight
  else .None

-- ---------------------------------------------------------------------------
-- External scanner state and stack-head merging: subtree.rs / stack.rs
-- ---------------------------------------------------------------------------

/-- `ts_subtree_external_scanner_state` from `subtree.rs`: the state buffer
of a non-null heap leaf that has external tokens, otherwise the empty
state.  A heap node whose body is a children body has `child_count =
children.length`, so a node with children never reports a buffer; the
scanner-state body itself implies `child_count == 0`. -/
def ts_subtree_external_scanner_state : Option Subtree → List Nat
  | some (.heapScannerState f st) => if f.has_external_tokens then st else []
  | _ => []

/-- `ts_external_scanner_state_eq` from `subtree.rs`: equal length and
`memcmp`-equal bytes, i.e. equality of the byte lists. -/
def ts_external_scanner_state_eq (a b : List Nat) : Bool :=
  a.length == b.length && a == b

/-- `ts_subtree_external_scanner_state_eq` from `subtree.rs`. -/
def ts_subtree_external_scanner_state_eq (self_ other : Option Subtree) : Bool :=
  ts_external_scanner_state_eq
    (ts_subtree_external_scanner_state self_)
    (ts_subtree_external_scanner_state other)

/-- `StackStatus` from `stack.rs`. -/
inductive StackStatus where
  | Active
  | Paused
  | Halted
deriving Repr, DecidableEq

/-- The value content of `StackNode` from `stack.rs` that `ts_stack_can_merge`
reads (links are graph structure and are not consulted). -/
structure StackNode where
  state : Nat
  position : Length
  error_cost : Nat
  node_count : Nat
  dynamic_precedence : Int
deriving Repr, DecidableEq

/-- The value content of `StackHead` from `stack.rs` that `ts_stack_can_merge`
reads; `last_external_token` may be the null subtree. -/
structure StackHead where
  node : StackNode
  node_count_at_last_error : Nat
  last_external_token : Option Subtree
  status : StackStatus

/-- A `Stack` from `stack.rs`, reduced to its ordered list of heads (the
node pools and slice scratch arrays are allocation machinery). -/
structure Stack where
  heads : List StackHead

/-- `ts_stack_can_merge` from `stack.rs`; the versions are indices into the
head array. -/
def ts_stack_can_merge (self_ : Stack) (version1 version2 : Fin self_.heads.length) :
    Bool :=
  let head1 := self_.heads.get version1
  let head2 := self_.heads.get version2
  head1.status == StackStatus.Active
    && head2.status == StackStatus.Active
    && head1.node.state == head2.node.state
    && head1.node.position.bytes == head2.node.position.bytes
    && head1.node.error_cost == head2.node.error_cost
    && ts_subtree_external_scanner_state_eq
        head1.last_external_token
        head2.last_external_token

-- ---------------------------------------------------------------------------
-- Included ranges: ts_lexer_set_included_ranges from lexer.rs
-- ---------------------------------------------------------------------------

/-- `TSRange` from the public API (field order of the C struct). -/
structure TSRange where
  start_point : TSPoint
  end_point : TSPoint
  start_byte : Nat
  end_byte : Nat
deriving Repr, DecidableEq

/-- `DEFAULT_RANGE` from `lexer.rs`: the whole document. -/
def DEFAULT_RANGE : TSRange :=
  ⟨⟨0, 0⟩, ⟨U32_MAX, U32_MAX⟩, 0, U32_MAX⟩

/-- The validation loop of `ts_lexer_set_included_ranges` from `lexer.rs`:
walk the ranges with the previous range's `end_byte` (initially 0) and
reject a range that starts before it or ends before its own start. -/
def check_included_ranges (previous_byte : Nat) : List TSRange → Bool
  | [] => true
  | range :: rest =>
      if range.start_byte < previous_byte || range.end_byte < range.start_byte then
        false
      else
        check_included_ranges range.end_byte rest

/-- `ts_lexer_set_included_ranges` from `lexer.rs`, as a function from the
lexer's stored ranges and the argument array to the returned flag and the
stored ranges afterwards.  An empty argument array (`count == 0` or a null
pointer) installs `DEFAULT_RANGE`; an invalid array returns `false`
before any mutation; a valid array is copied in.  (`ts_lexer_goto` only
repositions the cursor.) -/
def ts_lexer_set_included_ranges (stored ranges : List TSRange) :
    Bool × List TSRange :=
  if ranges.isEmpty then
    (true, [DEFAULT_RANGE])
  else if check_included_ranges 0 ranges then
    (true, ranges)
  else
    (false, stored)

-- ---------------------------------------------------------------------------
-- Changed-range accumulation: ts_range_array_add from get_changed_ranges.rs
-- ---------------------------------------------------------------------------

/-- `ts_range_array_add` from `get_changed_ranges.rs`: if the array is
non-empty and the new start does not lie strictly beyond the last range's
end, the last range's end is overwritten in place; otherwise a new range
is pushed when it is non-degenerate. -/
def ts_range_array_add (self_ : List TSRange) (start end_ : Length) :
    List TSRange :=
  match self_.getLast? with
  | some last_range =>
      if start.bytes ≤ last_range.end_byte then
        self_.dropLast ++
          [{ last_range with end_byte := end_.bytes, end_point := end_.extent }]
      else if start.bytes < end_.bytes then
        self_ ++ [⟨start.extent, end_.extent, start.bytes, end_.bytes⟩]
      else self_
  | none =>
      if start.bytes < end_.bytes then
        self_ ++ [⟨start.extent, end_.extent, start.bytes, end_.bytes⟩]
      else self_

-- ---------------------------------------------------------------------------
-- Test fixtures for concrete witnesses and counterexamples
-- ---------------------------------------------------------------------------

/-- A concrete language whose symbols are all visible and named and that has
no aliases. -/
def testLanguage : TSLanguage :=
  ⟨fun _ => ⟨true, true, false⟩, fun _ _ => 0⟩

/-- A concrete inline leaf with the given symbol and all other fields zero. -/
def testInlineLeaf (symbol : Nat) : Subtree :=
  .inline ⟨false, false, false, false, false, false, symbol, 0, 0, 0, 0, 0, 0⟩

/-- A concrete inline MISSING leaf. -/
def testMissingLeaf : Subtree :=
  .inline ⟨false, false, false, false, true, false, 7, 0, 0, 0, 0, 0, 0⟩

-- ---------------------------------------------------------------------------
-- Claim C7
-- ---------------------------------------------------------------------------

/-- C7: every subtree whose `is_missing` flag is set (inline or heap) has
`ts_subtree_error_cost` exactly `ERROR_COST_PER_MISSING_TREE +
ERROR_COST_PER_RECOVERY = 110 + 500 = 610`, and `ts_subtree_new_missing_leaf`
always sets that flag. -/
theorem C7_missing_error_cost :
    (∀ t : Subtree, ts_subtree_missing t = true →
      ts_subtree_error_cost t = ERROR_COST_PER_MISSING_TREE + ERROR_COST_PER_RECOVERY ∧
      ts_subtree_error_cost t = 610) ∧
    (∀ (symbol : Nat) (padding : Length) (lookahead_bytes : Nat)
      (language : TSLanguage),
      ts_subtree_missing
        (ts_subtree_new_missing_leaf symbol padding lookahead_bytes language) = true) := by
  constructor
  · intro t h
    simp [ts_subtree_error_cost, h, ERROR_COST_PER_MISSING_TREE, ERROR_COST_PER_RECOVERY]
  · intro symbol padding lookahead_bytes language
    unfold ts_subtree_new_missing_leaf
    split <;> simp [ts_subtree_missing]

/-- Witness for C7: a concrete missing leaf has error cost 610. -/
theorem C7_missing_error_cost_witness :
    ts_subtree_missing (ts_subtree_new_missing_leaf 7 length_zero 0 testLanguage) = true ∧
    ts_subtree_error_cost (ts_subtree_new_missing_leaf 7 length_zero 0 testLanguage) = 610 := by
  refine ⟨C7_missing_error_cost.2 7 length_zero 0 testLanguage, ?_⟩
  exact (C7_missing_error_cost.1 _ (C7_missing_error_cost.2 7 length_zero 0 testLanguage)).2

-- ---------------------------------------------------------------------------
-- Claim C10
-- ---------------------------------------------------------------------------

/-- C10: `ts_subtree_new_leaf` sets the `extra` flag exactly when the symbol
is the built-in end-of-file symbol (`ts_builtin_sym_end = 0`); freshly
created ERROR leaves and MISSING leaves with a non-END symbol start with
`extra = false`. -/
theorem C10_new_leaf_extra_iff :
    (∀ (symbol : Nat) (padding size : Length) (lookahead_bytes parse_state : Nat)
      (has_external_tokens depends_on_column is_keyword : Bool)
      (language : TSLanguage),
      ts_subtree_extra
        (ts_subtree_new_leaf symbol padding size lookahead_bytes parse_state
          has_external_tokens depends_on_column is_keyword language) =
        (symbol == ts_builtin_sym_end)) ∧
    (∀ (lookahead_char : Int) (padding size : Length) (bytes_scanned parse_state : Nat)
      (language : TSLanguage),
      ts_subtree_extra
        (ts_subtree_new_error lookahead_char padding size bytes_scanned parse_state
          language) = false) ∧
    (∀ (symbol : Nat) (padding : Length) (lookahead_bytes : Nat)
      (language : TSLanguage), symbol ≠ ts_builtin_sym_end →
      ts_subtree_extra
        (ts_subtree_new_missing_leaf symbol padding lookahead_bytes language) = false) := by
  have hleaf : ∀ (symbol : Nat) (padding size : Length)
      (lookahead_bytes parse_state : Nat)
      (has_external_tokens depends_on_column is_keyword : Bool)
      (language : TSLanguage),
      ts_subtree_extra
        (ts_subtree_new_leaf symbol padding size lookahead_bytes parse_state
          has_external_tokens depends_on_column is_keyword language) =
        (symbol == ts_builtin_sym_end) := by
    intro symbol padding size lookahead_bytes parse_state het dcol kw language
    simp only [ts_subtree_new_leaf]
    split <;> simp [ts_subtree_extra]
  refine ⟨hleaf, ?_, ?_⟩
  · intro lookahead_char padding size bytes_scanned parse_state language
    have h := hleaf ts_builtin_sym_error padding size bytes_scanned parse_state
      false false false language
    unfold ts_subtree_new_error
    cases hres : ts_subtree_new_leaf ts_builtin_sym_error padding size bytes_scanned
        parse_state false false false language with
    | inline d =>
        rw [hres] at h
        simpa [ts_subtree_extra, ts_builtin_sym_error, ts_builtin_sym_end] using h
    | heapChildren f info children =>
        rw [hres] at h
        simpa [ts_subtree_extra, ts_builtin_sym_error, ts_builtin_sym_end] using h
    | heapScannerState f st =>
        rw [hres] at h
        simpa [ts_subtree_extra, ts_builtin_sym_error, ts_builtin_sym_end] using h
    | heapLookaheadChar f c =>
        rw [hres] at h
        simpa [ts_subtree_extra, ts_builtin_sym_error, ts_builtin_sym_end] using h
  · intro symbol padding lookahead_bytes language hsym
    have h := hleaf symbol padding length_zero lookahead_bytes 0 false false false
      language
    unfold ts_subtree_new_missing_leaf
    cases hres : ts_subtree_new_leaf symbol padding length_zero lookahead_bytes 0
        false false false language with
    | inline d =>
        rw [hres] at h
        simp only [ts_subtree_extra] at h ⊢
        rw [h]
        simpa [ts_builtin_sym_end, beq_eq_false_iff_ne] using hsym
    | heapChildren f info children =>
        rw [hres] at h
        simp only [ts_subtree_extra] at h ⊢
        rw [h]
        simpa [ts_builtin_sym_end, beq_eq_false_iff_ne] using hsym
    | heapScannerState f st =>
        rw [hres] at h
        simp only [ts_subtree_extra] at h ⊢
        rw [h]
        simpa [ts_builtin_sym_end, beq_eq_false_iff_ne] using hsym
    | heapLookaheadChar f c =>
        rw [hres] at h
        simp only [ts_subtree_extra] at h ⊢
        rw [h]
        simpa [ts_builtin_sym_end, beq_eq_false_iff_ne] using hsym

/-- Witness for C10: the EOF leaf is extra, a symbol-5 missing leaf is not. -/
theorem C10_new_leaf_extra_iff_witness :
    ts_subtree_extra
      (ts_subtree_new_leaf 0 length_zero length_zero 0 0 false false false
        testLanguage) = true ∧
    ts_subtree_extra
      (ts_subtree_new_missing_leaf 5 length_zero 0 testLanguage) = false := by
  constructor
  · rw [C10_new_leaf_extra_iff.1 0 length_zero length_zero 0 0 false false false
      testLanguage]
    decide
  · exact C10_new_leaf_extra_iff.2.2 5 length_zero 0 testLanguage (by decide)

-- ---------------------------------------------------------------------------
-- Claim C6
-- ---------------------------------------------------------------------------

/-- C6: whenever `ts_parser__select_tree` prefers the replacing tree over a
previously finished tree (both non-null), the replacing tree's error cost
is at most the prior tree's; this is the guard `ts_parser__accept` uses
before replacing `finished_tree`. -/
theorem C6_select_tree_cost_monotone :
    ∀ left right : Subtree,
      ts_parser__select_tree (some left) (some right) = true →
      ts_subtree_error_cost right ≤ ts_subtree_error_cost left := by
  intro left right h
  simp only [ts_parser__select_tree] at h
  split_ifs at h with h1 h2 h3 h4 h5
  · omega
  · omega
  · omega
  · omega

/-- Witness for C6: a zero-cost leaf is selected over a missing (cost 610)
leaf, and its cost is indeed not larger. -/
theorem C6_select_tree_cost_monotone_witness :
    ts_parser__select_tree (some testMissingLeaf) (some (testInlineLeaf 3)) = true ∧
    ts_subtree_error_cost (testInlineLeaf 3) ≤ ts_subtree_error_cost testMissingLeaf := by
  exact ⟨by decide, C6_select_tree_cost_monotone _ _ (by decide)⟩

-- ---------------------------------------------------------------------------
-- Claim C4
-- ---------------------------------------------------------------------------

/-- Left operand of the C4 counterexample. -/
def c4_left : ErrorStatus := ⟨0, 1, 0, false⟩

/-- Right operand of the C4 counterexample: the cost difference `2^31`
multiplied by `1 + node_count = 2` wraps to 0 in `u32` arithmetic. -/
def c4_right : ErrorStatus := ⟨2 ^ 31, 0, 0, false⟩

/-- C4 counterexample: both statuses non-error with `a.cost < b.cost` and all
fields in `u32` range; the exact product `(b.cost - a.cost) * (1 +
a.node_count) = 2^32` exceeds `MAX_COST_DIFFERENCE`, so the claim predicts
`TakeLeft`, but the code's wrapping `u32` product is 0 and it returns
`PreferLeft`. -/
theorem C4_compare_versions_counterexample :
    c4_left.is_in_error = c4_right.is_in_error ∧
    c4_left.cost < c4_right.cost ∧
    c4_left.cost ≤ U32_MAX ∧ c4_right.cost ≤ U32_MAX ∧ c4_left.node_count ≤ U32_MAX ∧
    (c4_right.cost - c4_left.cost) * (1 + c4_left.node_count) > MAX_COST_DIFFERENCE ∧
    ts_parser__compare_versions c4_left c4_right = ErrorComparison.PreferLeft := by
  refine ⟨rfl, by norm_num [c4_left, c4_right], by norm_num [c4_left, U32_MAX, U32_MOD],
    by norm_num [c4_right, U32_MAX, U32_MOD], by norm_num [c4_left, U32_MAX, U32_MOD],
    by norm_num [c4_left, c4_right, MAX_COST_DIFFERENCE, ERROR_COST_PER_SKIPPED_TREE], ?_⟩
  norm_num [ts_parser__compare_versions, c4_left, c4_right, U32_MOD,
    MAX_COST_DIFFERENCE, ERROR_COST_PER_SKIPPED_TREE]

/-- C4 (amended): for statuses with equal `is_in_error` and `a.cost < b.cost`,
the result is `TakeLeft` exactly when the wrapping `u32` product
`((b.cost - a.cost) * (1 + a.node_count)) mod 2^32` exceeds
`MAX_COST_DIFFERENCE = 1800`, and `PreferLeft` otherwise; whenever the
exact product fits in `u32` (and `a.cost`, `b.cost`, `a.node_count` are
`u32` values), this agrees with the exact-arithmetic form of the claim. -/
theorem C4_compare_versions_amended :
    ∀ a b : ErrorStatus, a.is_in_error = b.is_in_error → a.cost < b.cost →
      (ts_parser__compare_versions a b =
        (if ((b.cost - a.cost) * ((1 + a.node_count) % U32_MOD)) % U32_MOD
            > MAX_COST_DIFFERENCE
         then ErrorComparison.TakeLeft else ErrorComparison.PreferLeft)) ∧
      ((b.cost - a.cost) * (1 + a.node_count) ≤ U32_MAX →
        (ts_parser__compare_versions a b = ErrorComparison.TakeLeft ↔
          (b.cost - a.cost) * (1 + a.node_count) > MAX_COST_DIFFERENCE)) := by
  intro a b herr hcost
  have hmain : ts_parser__compare_versions a b =
      (if ((b.cost - a.cost) * ((1 + a.node_count) % U32_MOD)) % U32_MOD
          > MAX_COST_DIFFERENCE
       then ErrorComparison.TakeLeft else ErrorComparison.PreferLeft) := by
    unfold ts_parser__compare_versions
    rw [herr]
    cases hb : b.is_in_error <;> simp [hcost]
  refine ⟨hmain, fun hfit => ?_⟩
  have hdelta : 1 ≤ b.cost - a.cost := by omega
  have hnode : 1 + a.node_count < U32_MOD := by
    have : 1 + a.node_count ≤ (b.cost - a.cost) * (1 + a.node_count) :=
      Nat.le_mul_of_pos_left _ (by omega)
    simp only [U32_MAX] at hfit
    omega
  have hprod : (b.cost - a.cost) * (1 + a.node_count) < U32_MOD := by
    simp only [U32_MAX] at hfit
    omega
  rw [hmain, Nat.mod_eq_of_lt hnode, Nat.mod_eq_of_lt hprod]
  split <;> simp_all

/-- Witness for C4 (amended): at cost difference 2000 and node count 0 the
code returns `TakeLeft`, in agreement with the wrapping formula. -/
theorem C4_compare_versions_amended_witness :
    (⟨0, 0, 0, false⟩ : ErrorStatus).is_in_error =
      (⟨2000, 0, 0, false⟩ : ErrorStatus).is_in_error ∧
    (⟨0, 0, 0, false⟩ : ErrorStatus).cost < (⟨2000, 0, 0, false⟩ : ErrorStatus).cost ∧
    ts_parser__compare_versions ⟨0, 0, 0, false⟩ ⟨2000, 0, 0, false⟩ =
      ErrorComparison.TakeLeft := by
  refine ⟨rfl, by norm_num, ?_⟩
  rw [(C4_compare_versions_amended ⟨0, 0, 0, false⟩ ⟨2000, 0, 0, false⟩ rfl
    (by norm_num)).1]
  norm_num [U32_MOD, MAX_COST_DIFFERENCE, ERROR_COST_PER_SKIPPED_TREE]

-- ---------------------------------------------------------------------------
-- Claim C1
-- ---------------------------------------------------------------------------

/-- The inline criteria exactly as the claim states them: symbol id ≤ 255, no
external tokens, padding bytes < 256, size bytes < 256, padding rows < 16,
lookahead bytes < 16, and size extent row = 0. -/
def c1_claimed_inline_criteria (symbol : Nat) (padding size : Length)
    (lookahead_bytes : Nat) (has_external_tokens : Bool) : Bool :=
  decide (symbol ≤ 255) && !has_external_tokens
    && decide (padding.bytes < 256) && decide (size.bytes < 256)
    && decide (padding.extent.row < 16) && decide (lookahead_bytes < 16)
    && (size.extent.row == 0)

/-- C1 counterexample: a leaf with padding of exactly 255 bytes satisfies
every criterion of the claim (255 < 256), yet `ts_subtree_new_leaf`
produces a heap subtree, because `ts_subtree_can_inline` demands
`padding.bytes < TS_MAX_INLINE_TREE_LENGTH = 255` strictly. -/
theorem C1_new_leaf_inline_counterexample :
    c1_claimed_inline_criteria 1 ⟨255, ⟨0, 0⟩⟩ length_zero 0 false = true ∧
    (ts_subtree_new_leaf 1 ⟨255, ⟨0, 0⟩⟩ length_zero 0 0 false false false
      testLanguage).is_inline = false := by
  constructor
  · decide
  · decide

/-- C1 (amended): `ts_subtree_new_leaf` returns an inline subtree if and only
if symbol id ≤ 255, `has_external_tokens` is false, padding bytes < 255,
padding rows < 16, padding columns < 255, size bytes < 255, size extent
row = 0, size extent columns < 255, and lookahead bytes < 16; in every
other case it returns a heap subtree. -/
theorem C1_new_leaf_inline_iff :
    ∀ (symbol : Nat) (padding size : Length) (lookahead_bytes parse_state : Nat)
      (has_external_tokens depends_on_column is_keyword : Bool)
      (language : TSLanguage),
      (ts_subtree_new_leaf symbol padding size lookahead_bytes parse_state
          has_external_tokens depends_on_column is_keyword language).is_inline = true ↔
        (symbol ≤ 255 ∧ has_external_tokens = false ∧
          padding.bytes < 255 ∧ padding.extent.row < 16 ∧
          padding.extent.column < 255 ∧ size.bytes < 255 ∧
          size.extent.row = 0 ∧ size.extent.column < 255 ∧
          lookahead_bytes < 16) := by
  intro symbol padding size lookahead_bytes parse_state het dcol kw language
  simp only [ts_subtree_new_leaf, ts_subtree_can_inline, TS_MAX_INLINE_TREE_LENGTH]
  split
  · rename_i hcond
    simp only [Subtree.is_inline, true_iff]
    simp at hcond
    tauto
  · rename_i hcond
    simp only [Subtree.is_inline, Bool.false_eq_true, false_iff]
    simp at hcond
    intro hc
    obtain ⟨h1, h2, h3, h4, h5, h6, h7, h8, h9⟩ := hc
    have := hcond h1 h2 h3 h4 h5 h6 h7 h8
    omega

-- ---------------------------------------------------------------------------
-- Claim C5
-- ---------------------------------------------------------------------------

/-- C5: `ts_stack_can_merge` returns true iff both heads are Active, their
top nodes agree on state, position bytes and error cost, and their last
external tokens carry byte-wise equal external-scanner buffers of equal
length. -/
theorem C5_can_merge_iff :
    ∀ (self_ : Stack) (version1 version2 : Fin self_.heads.length),
      ts_stack_can_merge self_ version1 version2 = true ↔
        ((self_.heads.get version1).status = StackStatus.Active ∧
         (self_.heads.get version2).status = StackStatus.Active ∧
         (self_.heads.get version1).node.state = (self_.heads.get version2).node.state ∧
         (self_.heads.get version1).node.position.bytes =
           (self_.heads.get version2).node.position.bytes ∧
         (self_.heads.get version1).node.error_cost =
           (self_.heads.get version2).node.error_cost ∧
         (ts_subtree_external_scanner_state
             (self_.heads.get version1).last_external_token).length =
           (ts_subtree_external_scanner_state
             (self_.heads.get version2).last_external_token).length ∧
         ∀ (i : Nat)
           (h1 : i < (ts_subtree_external_scanner_state
             (self_.heads.get version1).last_external_token).length)
           (h2 : i < (ts_subtree_external_scanner_state
             (self_.heads.get version2).last_external_token).length),
           (ts_subtree_external_scanner_state
             (self_.heads.get version1).last_external_token).get ⟨i, h1⟩ =
           (ts_subtree_external_scanner_state
             (self_.heads.get version2).last_external_token).get ⟨i, h2⟩) := by
  intro self_ version1 version2
  simp only [ts_stack_can_merge, ts_subtree_external_scanner_state_eq,
    ts_external_scanner_state_eq, Bool.and_eq_true, beq_iff_eq]
  constructor
  · rintro ⟨⟨⟨⟨⟨hs1, hs2⟩, hstate⟩, hpos⟩, hcost⟩, hlen, heq⟩
    refine ⟨hs1, hs2, hstate, hpos, hcost, hlen, ?_⟩
    intro i h1 h2
    exact List.get_of_eq heq ⟨i, h1⟩
  · rintro ⟨hs1, hs2, hstate, hpos, hcost, hlen, hget⟩
    refine ⟨⟨⟨⟨⟨hs1, hs2⟩, hstate⟩, hpos⟩, hcost⟩, hlen, ?_⟩
    apply List.ext_get hlen
    intro i h1 h2
    exact hget i h1 h2

-- ---------------------------------------------------------------------------
-- Claim C8
-- ---------------------------------------------------------------------------

/-- The invalidity condition exactly as the claim states it: some range
starts before the previous range's end (overlap) or ends before its own
start (decreasing). -/
@[reducible] def c8_bad (ranges : List TSRange) : Prop :=
  (∃ r ∈ ranges, r.end_byte < r.start_byte) ∨
  (∃ i : Fin (ranges.length - 1),
    (ranges.get ⟨i.1 + 1, by have := i.isLt; omega⟩).start_byte <
      (ranges.get ⟨i.1, by have := i.isLt; omega⟩).end_byte)

/-- The validation loop accepts iff every range is non-decreasing, consecutive
ranges do not overlap, and the first range does not start before
`previous_byte`. -/
theorem check_ranges_true_iff :
    ∀ (ranges : List TSRange) (previous_byte : Nat),
      check_included_ranges previous_byte ranges = true ↔
        ((∀ r ∈ ranges, r.start_byte ≤ r.end_byte) ∧
         List.Chain' (fun a b => a.end_byte ≤ b.start_byte) ranges ∧
         (∀ first ∈ ranges.head?, previous_byte ≤ first.start_byte)) := by
  intro ranges
  induction ranges with
  | nil => intro prev; simp [check_included_ranges]
  | cons r rest ih =>
      intro prev
      simp only [check_included_ranges]
      split
      · rename_i hbad
        simp only [Bool.or_eq_true, decide_eq_true_eq] at hbad
        simp only [Bool.false_eq_true, false_iff]
        rintro ⟨hall, _, hhead⟩
        have h1 := hall r (List.mem_cons_self r rest)
        have h2 := hhead r (by simp)
        omega
      · rename_i hok
        simp only [Bool.or_eq_true, decide_eq_true_eq, not_or, Nat.not_lt] at hok
        rw [ih r.end_byte]
        simp only [List.forall_mem_cons, List.chain'_cons', List.head?_cons,
          Option.mem_def, Option.some.injEq, forall_eq]
        constructor
        · rintro ⟨hall, hchain, hfirst⟩
          refine ⟨⟨hok.2, hall⟩, ⟨?_, hchain⟩, ?_⟩
          · intro b hb
            have := hfirst b hb
            omega
          · intro first hf
            rw [← hf]
            exact hok.1
        · rintro ⟨⟨_, hall⟩, ⟨hnext, hchain⟩, _⟩
          refine ⟨hall, hchain, ?_⟩
          intro b hb
          exact hnext b hb

/-- The claim's invalidity condition is the negation of what the loop
checks (starting from `previous_byte = 0`, where the first range can
never violate the lower bound). -/
theorem c8_bad_iff_check_false :
    ∀ ranges : List TSRange,
      check_included_ranges 0 ranges = false ↔ c8_bad ranges := by
  intro ranges
  rw [← Bool.not_eq_true, check_ranges_true_iff]
  simp only [c8_bad, List.chain'_iff_get, not_and_or, not_forall]
  constructor
  · rintro (h | h | h)
    · left
      obtain ⟨r, hr, hlt⟩ := h
      exact ⟨r, hr, by omega⟩
    · right
      obtain ⟨i, hi, hlt⟩ := h
      refine ⟨⟨i, hi⟩, ?_⟩
      show (ranges.get ⟨i + 1, _⟩).start_byte < (ranges.get ⟨i, _⟩).end_byte
      omega
    · obtain ⟨first, hfirst, hlt⟩ := h
      omega
  · rintro (⟨r, hr, hlt⟩ | ⟨i, hlt⟩)
    · left
      exact ⟨r, hr, by omega⟩
    · right
      left
      refine ⟨i.1, i.isLt, ?_⟩
      have hlt2 : (ranges.get ⟨i.1 + 1, by have := i.isLt; omega⟩).start_byte <
          (ranges.get ⟨i.1, by have := i.isLt; omega⟩).end_byte := hlt
      omega

/-- C8: with a non-empty array, `ts_lexer_set_included_ranges` returns false
(leaving the stored ranges unchanged) iff some range starts before the
previous range's end or ends before its own start; an empty array installs
the single whole-document range `[0, u32::MAX)` and returns true; a valid
array is installed and accepted. -/
theorem C8_set_included_ranges :
    ∀ stored ranges : List TSRange,
      (ranges = [] →
        ts_lexer_set_included_ranges stored ranges = (true, [DEFAULT_RANGE]) ∧
        DEFAULT_RANGE.start_byte = 0 ∧ DEFAULT_RANGE.end_byte = U32_MAX) ∧
      (ranges ≠ [] →
        ((ts_lexer_set_included_ranges stored ranges).1 = false ↔ c8_bad ranges) ∧
        ((ts_lexer_set_included_ranges stored ranges).1 = false →
          (ts_lexer_set_included_ranges stored ranges).2 = stored) ∧
        ((ts_lexer_set_included_ranges stored ranges).1 = true →
          (ts_lexer_set_included_ranges stored ranges).2 = ranges)) := by
  intro stored ranges
  constructor
  · intro hempty
    subst hempty
    exact ⟨rfl, rfl, rfl⟩
  · intro hne
    have hisempty : ranges.isEmpty = false := by
      cases ranges with
      | nil => exact absurd rfl hne
      | cons r rest => rfl
    simp only [ts_lexer_set_included_ranges, hisempty, Bool.false_eq_true,
      if_false]
    rw [← c8_bad_iff_check_false ranges]
    cases hcheck : check_included_ranges 0 ranges <;> simp

/-- Witness for C8: the empty array installs the whole-document range, and a
decreasing one-element array is rejected leaving the stored ranges
unchanged. -/
theorem C8_set_included_ranges_witness :
    ts_lexer_set_included_ranges [] [] = (true, [DEFAULT_RANGE]) ∧
    (ts_lexer_set_included_ranges [DEFAULT_RANGE]
      [⟨⟨0, 0⟩, ⟨0, 0⟩, 5, 3⟩]).1 = false ∧
    (ts_lexer_set_included_ranges [DEFAULT_RANGE]
      [⟨⟨0, 0⟩, ⟨0, 0⟩, 5, 3⟩]).2 = [DEFAULT_RANGE] := by
  refine ⟨((C8_set_included_ranges [] []).1 rfl).1, ?_, ?_⟩
  · exact ((C8_set_included_ranges [DEFAULT_RANGE] [⟨⟨0, 0⟩, ⟨0, 0⟩, 5, 3⟩]).2
      (by decide)).1.mpr (by decide)
  · exact ((C8_set_included_ranges [DEFAULT_RANGE] [⟨⟨0, 0⟩, ⟨0, 0⟩, 5, 3⟩]).2
      (by decide)).2.1 (((C8_set_included_ranges [DEFAULT_RANGE]
        [⟨⟨0, 0⟩, ⟨0, 0⟩, 5, 3⟩]).2 (by decide)).1.mpr (by decide))

-- ---------------------------------------------------------------------------
-- Claim C9
-- ---------------------------------------------------------------------------

/-- The changed-range output invariant of the claim: every range is
non-degenerate (`start_byte < end_byte`) and the ranges are sorted and
pairwise disjoint (each earlier range ends at or before every later range
starts). -/
@[reducible] def ranges_well_formed (l : List TSRange) : Prop :=
  (∀ r ∈ l, r.start_byte < r.end_byte) ∧
  l.Pairwise (fun a b => a.end_byte ≤ b.start_byte)

/-- C9: `ts_range_array_add` preserves the changed-range output invariant
when called with a non-degenerate interval starting at or after the last
range's start, and coalesces into the last range in place (same array
length) exactly when the new start does not lie strictly beyond the last
range's end. -/
theorem C9_range_array_add :
    ∀ (self_ : List TSRange) (start end_ : Length),
      ranges_well_formed self_ →
      (∀ last, self_.getLast? = some last → last.start_byte ≤ start.bytes) →
      start.bytes < end_.bytes →
      ranges_well_formed (ts_range_array_add self_ start end_) ∧
      (∀ last, self_.getLast? = some last → start.bytes ≤ last.end_byte →
        ts_range_array_add self_ start end_ =
          self_.dropLast ++
            [{ last with end_byte := end_.bytes, end_point := end_.extent }] ∧
        (ts_range_array_add self_ start end_).length = self_.length) := by
  intro self_ start end_ hwf hlaststart hse
  induction self_ using List.reverseRecOn with
  | nil =>
      constructor
      · simp only [ts_range_array_add, List.getLast?_nil, hse, if_pos,
          List.nil_append]
        exact ⟨by intro r hr; simp at hr; subst hr; exact hse, by simp⟩
      · intro last hlast
        simp at hlast
  | append_singleton init last _ =>
      have hgl : (init ++ [last]).getLast? = some last := by
        simp [List.getLast?_concat]
      obtain ⟨hbounds, hpair⟩ := hwf
      rw [List.pairwise_append] at hpair
      obtain ⟨hpinit, _, hcross⟩ := hpair
      have hlastlt : last.start_byte < last.end_byte := by
        exact hbounds last (by simp)
      have hstartlb : last.start_byte ≤ start.bytes :=
        hlaststart last hgl
      simp only [ts_range_array_add, hgl, List.dropLast_concat]
      by_cases hcoal : start.bytes ≤ last.end_byte
      · rw [if_pos hcoal]
        refine ⟨⟨?_, ?_⟩, ?_⟩
        · intro r hr
          rw [List.mem_append] at hr
          rcases hr with hr | hr
          · exact hbounds r (by simp [hr])
          · simp at hr
            subst hr
            simp only
            omega
        · rw [List.pairwise_append]
          refine ⟨hpinit, by simp, ?_⟩
          intro a ha b hb
          simp at hb
          subst hb
          simpa using hcross a ha last (by simp)
        · intro last0 hlast0 _
          injection hlast0 with hlast0
          subst hlast0
          exact ⟨rfl, by simp⟩
      · rw [if_neg hcoal, if_pos hse]
        refine ⟨⟨?_, ?_⟩, ?_⟩
        · intro r hr
          rw [List.mem_append] at hr
          rcases hr with hr | hr
          · exact hbounds r hr
          · simp at hr
            subst hr
            exact hse
        · rw [List.pairwise_append]
          refine ⟨List.pairwise_append.mpr ⟨hpinit, by simp, hcross⟩, by simp, ?_⟩
          intro a ha b hb
          simp at hb
          subst hb
          simp only
          rw [List.mem_append] at ha
          rcases ha with ha | ha
          · have h1 := hcross a ha last (by simp)
            omega
          · simp at ha
            subst ha
            omega
        · intro last0 hlast0 hle
          injection hlast0 with hlast0
          subst hlast0
          exact absurd hle hcoal

/-- Witness for C9: adding `[4, 9)` to the well-formed array `\x7b[0, 5)\x7d`
coalesces in place into `\x7b[0, 9)\x7d`. -/
theorem C9_range_array_add_witness :
    ranges_well_formed
      (ts_range_array_add [⟨⟨0, 0⟩, ⟨0, 5⟩, 0, 5⟩] ⟨4, ⟨0, 4⟩⟩ ⟨9, ⟨0, 9⟩⟩) ∧
    ts_range_array_add [⟨⟨0, 0⟩, ⟨0, 5⟩, 0, 5⟩] ⟨4, ⟨0, 4⟩⟩ ⟨9, ⟨0, 9⟩⟩ =
      [⟨⟨0, 0⟩, ⟨0, 9⟩, 0, 9⟩] ∧
    (ts_range_array_add [⟨⟨0, 0⟩, ⟨0, 5⟩, 0, 5⟩] ⟨4, ⟨0, 4⟩⟩ ⟨9, ⟨0, 9⟩⟩).length = 1 := by
  have h := C9_range_array_add [⟨⟨0, 0⟩, ⟨0, 5⟩, 0, 5⟩] ⟨4, ⟨0, 4⟩⟩ ⟨9, ⟨0, 9⟩⟩
    (by constructor
        · intro r hr; simp at hr; subst hr; decide
        · simp)
    (by intro last hlast; simp at hlast; subst hlast; decide)
    (by decide)
  obtain ⟨hwf, hco⟩ := h
  have h2 := hco ⟨⟨0, 0⟩, ⟨0, 5⟩, 0, 5⟩ (by simp) (by decide)
  exact ⟨hwf, by rw [h2.1]; rfl, h2.2⟩

-- ---------------------------------------------------------------------------
-- Claim C2
-- ---------------------------------------------------------------------------

theorem summarize_child_step_first (language : TSLanguage) (selfSymbol : Nat)
    (aliasSequence : Option (Nat → Nat)) (acc : SummarizeAcc) (child : Subtree) :
    (summarize_child_step language selfSymbol aliasSequence true acc child).padding =
      ts_subtree_padding child ∧
    (summarize_child_step language selfSymbol aliasSequence true acc child).size =
      ts_subtree_size child := by
  constructor <;>
    simp [summarize_child_step, apply_ite SummarizeAcc.padding,
      apply_ite SummarizeAcc.size, ite_self]

theorem summarize_child_step_rest (language : TSLanguage) (selfSymbol : Nat)
    (aliasSequence : Option (Nat → Nat)) (acc : SummarizeAcc) (child : Subtree) :
    (summarize_child_step language selfSymbol aliasSequence false acc child).padding =
      acc.padding ∧
    (summarize_child_step language selfSymbol aliasSequence false acc child).size =
      length_add acc.size (ts_subtree_total_size child) := by
  constructor <;>
    simp [summarize_child_step, apply_ite SummarizeAcc.padding,
      apply_ite SummarizeAcc.size, ite_self]

theorem summarize_go_padding_size (language : TSLanguage) (selfSymbol : Nat)
    (aliasSequence : Option (Nat → Nat)) :
    ∀ (children : List Subtree) (acc : SummarizeAcc),
      (summarize_go language selfSymbol aliasSequence false acc children).padding =
        acc.padding ∧
      (summarize_go language selfSymbol aliasSequence false acc children).size.bytes =
        acc.size.bytes + (children.map ts_subtree_total_bytes).sum := by
  intro children
  induction children with
  | nil => intro acc; simp [summarize_go]
  | cons c cs ih =>
      intro acc
      simp only [summarize_go]
      obtain ⟨hpad, hsize⟩ :=
        summarize_child_step_rest language selfSymbol aliasSequence acc c
      obtain ⟨ihpad, ihsize⟩ :=
        ih (summarize_child_step language selfSymbol aliasSequence false acc c)
      refine ⟨by rw [ihpad, hpad], ?_⟩
      rw [ihsize, hsize]
      simp only [length_add, List.map_cons, List.sum_cons, ts_subtree_total_bytes]
      omega

/-- C2 counterexample input: an inline leaf with 1 byte of padding and 2
bytes of size, so `total_bytes = 3`. -/
def c2_pad_leaf : Subtree :=
  .inline ⟨false, false, false, false, false, false, 9, 0, 0, 0, 0, 1, 2⟩

/-- C2 counterexample: the summarized parent of the single child
`c2_pad_leaf` has `size.bytes = 2`, while the sum of the children's
`total_bytes` is 3: the first child's padding is excluded from the
parent's size, refuting `size.bytes = Σ total_bytes(child_i)`. -/
theorem C2_size_sum_counterexample :
    (ts_subtree_size (ts_subtree_new_node 9 [c2_pad_leaf] 0 testLanguage)).bytes = 2 ∧
    ([c2_pad_leaf].map ts_subtree_total_bytes).sum = 3 ∧
    ¬ (ts_subtree_size (ts_subtree_new_node 9 [c2_pad_leaf] 0 testLanguage)).bytes =
        ([c2_pad_leaf].map ts_subtree_total_bytes).sum := by
  refine ⟨by decide, by decide, by decide⟩

/-- C2 (amended): for every subtree, `total_bytes = padding.bytes +
size.bytes`; for every node summarized over a non-empty children list (in
particular every node built by `ts_subtree_new_node`), the padding equals
the first child's padding and `padding.bytes + size.bytes` (the node's
`total_bytes`) equals the sum of the children's `total_bytes` — so
`size.bytes` is that sum minus the first child's padding bytes, not the
sum itself. -/
theorem C2_summarize_structure :
    (∀ t : Subtree,
      ts_subtree_total_bytes t =
        (ts_subtree_padding t).bytes + (ts_subtree_size t).bytes) ∧
    (∀ (f : SubtreeHeapFields) (info : SubtreeChildrenData) (c : Subtree)
      (cs : List Subtree) (language : TSLanguage),
      ts_subtree_padding (ts_subtree_summarize_children f info (c :: cs) language) =
        ts_subtree_padding c ∧
      (ts_subtree_size (ts_subtree_summarize_children f info (c :: cs) language)).bytes +
          (ts_subtree_padding c).bytes =
        ((c :: cs).map ts_subtree_total_bytes).sum ∧
      ts_subtree_total_bytes (ts_subtree_summarize_children f info (c :: cs) language) =
        ((c :: cs).map ts_subtree_total_bytes).sum) ∧
    (∀ (symbol : Nat) (c : Subtree) (cs : List Subtree) (production_id : Nat)
      (language : TSLanguage),
      ts_subtree_padding (ts_subtree_new_node symbol (c :: cs) production_id language) =
        ts_subtree_padding c ∧
      ts_subtree_total_bytes
          (ts_subtree_new_node symbol (c :: cs) production_id language) =
        ((c :: cs).map ts_subtree_total_bytes).sum) := by
  have htotal : ∀ t : Subtree,
      ts_subtree_total_bytes t =
        (ts_subtree_padding t).bytes + (ts_subtree_size t).bytes :=
    fun _ => rfl
  have hsumm : ∀ (f : SubtreeHeapFields) (info : SubtreeChildrenData) (c : Subtree)
      (cs : List Subtree) (language : TSLanguage),
      ts_subtree_padding (ts_subtree_summarize_children f info (c :: cs) language) =
        ts_subtree_padding c ∧
      (ts_subtree_size (ts_subtree_summarize_children f info (c :: cs) language)).bytes +
          (ts_subtree_padding c).bytes =
        ((c :: cs).map ts_subtree_total_bytes).sum ∧
      ts_subtree_total_bytes (ts_subtree_summarize_children f info (c :: cs) language) =
        ((c :: cs).map ts_subtree_total_bytes).sum := by
    intro f info c cs language
    obtain ⟨last, hgl⟩ : ∃ last, (c :: cs).getLast? = some last :=
      ⟨(c :: cs).getLast (by simp), List.getLast?_eq_getLast _ (by simp)⟩
    obtain ⟨hstepp, hsteps⟩ := summarize_child_step_first language f.symbol
      (language_alias_sequence language info.production_id) (summarize_acc_init f) c
    obtain ⟨hgop, hgos⟩ := summarize_go_padding_size language f.symbol
      (language_alias_sequence language info.production_id) cs
      (summarize_child_step language f.symbol
        (language_alias_sequence language info.production_id) true
        (summarize_acc_init f) c)
    have hc : ts_subtree_total_bytes c =
        (ts_subtree_padding c).bytes + (ts_subtree_size c).bytes := rfl
    have hP : ∀ (F : SubtreeHeapFields) (I : SubtreeChildrenData)
        (CH : List Subtree),
        ts_subtree_padding (Subtree.heapChildren F I CH) = F.padding :=
      fun _ _ _ => rfl
    have hS : ∀ (F : SubtreeHeapFields) (I : SubtreeChildrenData)
        (CH : List Subtree),
        ts_subtree_size (Subtree.heapChildren F I CH) = F.size :=
      fun _ _ _ => rfl
    have hT : ∀ (F : SubtreeHeapFields) (I : SubtreeChildrenData)
        (CH : List Subtree),
        ts_subtree_total_bytes (Subtree.heapChildren F I CH) =
          F.padding.bytes + F.size.bytes :=
      fun _ _ _ => rfl
    simp only [ts_subtree_summarize_children, hgl, List.head?_cons, summarize_go]
    simp only [hP, hS, hT, List.map_cons, List.sum_cons]
    rw [hgop, hgos, hstepp, hsteps]
    exact ⟨rfl, by omega, by omega⟩
  refine ⟨htotal, hsumm, ?_⟩
  intro symbol c cs production_id language
  have h := hsumm
    { padding := length_zero
      size := length_zero
      lookahead_bytes := 0
      error_cost := 0
      symbol := symbol
      parse_state := 0
      visible := (ts_language_symbol_metadata language symbol).visible
      named := (ts_language_symbol_metadata language symbol).named
      extra := false
      fragile_left :=
        symbol == ts_builtin_sym_error || symbol == ts_builtin_sym_error_repeat
      fragile_right :=
        symbol == ts_builtin_sym_error || symbol == ts_builtin_sym_error_repeat
      has_changes := false
      has_external_tokens := false
      has_external_scanner_state_change := false
      depends_on_column := false
      is_missing := false
      is_keyword := false }
    { emptyChildrenData with production_id := production_id % 65536 }
    c cs language
  exact ⟨h.1, h.2.2⟩

-- ---------------------------------------------------------------------------
-- Claim C3
-- ---------------------------------------------------------------------------

theorem subtree_compare_lex_list_append (rev : Bool) :
    ∀ xs ys : List (Subtree × Subtree),
      subtree_compare_lex_list rev (xs ++ ys) =
        if subtree_compare_lex_list rev xs ≠ 0 then subtree_compare_lex_list rev xs
        else subtree_compare_lex_list rev ys := by
  intro xs
  induction xs with
  | nil => intro ys; simp [subtree_compare_lex_list]
  | cons p rest ih =>
      intro ys
      simp only [List.cons_append, subtree_compare_lex_list]
      rw [ih]
      by_cases hc : subtree_compare_lex rev p.1 p.2 = 0
      · simp [hc]
      · simp [hc]

theorem ts_subtree_compare_loop_eq_lex_list :
    ∀ stack : List (Subtree × Subtree),
      ts_subtree_compare_loop stack = subtree_compare_lex_list false stack := by
  intro stack
  induction stack using ts_subtree_compare_loop.induct with
  | case1 => simp [ts_subtree_compare_loop, subtree_compare_lex_list]
  | case2 left right rest result hresult =>
      rw [ts_subtree_compare_loop]
      simp only [subtree_compare_lex_list, subtree_compare_lex]
      simp only [result] at hresult
      simp [hresult]
  | case3 left right rest result hresult ih =>
      rw [ts_subtree_compare_loop]
      simp only [result] at hresult
      push_neg at hresult
      simp only [hresult, not_true_eq_false, ite_false, if_neg]
      rw [ih, subtree_compare_lex_list_append]
      simp only [subtree_compare_lex_list, subtree_compare_lex, hresult]
      simp

/-- C3 (amended): `ts_subtree_compare` computes the recursive lexicographic
order given by symbol ascending, then child count ascending, and on ties
the children lists compared pairwise left-to-right (first child pair
first). -/
theorem C3_compare_lexicographic :
    ∀ left right : Subtree,
      ts_subtree_compare left right = subtree_compare_lex false left right := by
  intro left right
  rw [ts_subtree_compare, ts_subtree_compare_loop_eq_lex_list]
  simp only [subtree_compare_lex_list]
  by_cases h : subtree_compare_lex false left right = 0 <;> simp [h]

/-- Shared heap header of the C3 counterexample trees: symbol 5, no flags. -/
def c3_heap_fields : SubtreeHeapFields :=
  ⟨length_zero, length_zero, 0, 0, 5, 0, true, true, false, false, false, false,
    false, false, false, false, false⟩

/-- Left tree of the C3 counterexample: children `[leaf 1, leaf 2]`. -/
def c3_left : Subtree :=
  .heapChildren c3_heap_fields emptyChildrenData [testInlineLeaf 1, testInlineLeaf 2]

/-- Right tree of the C3 counterexample: children `[leaf 2, leaf 1]`. -/
def c3_right : Subtree :=
  .heapChildren c3_heap_fields emptyChildrenData [testInlineLeaf 2, testInlineLeaf 1]

/-- C3 counterexample: on two symbol-5 nodes whose children are `[1, 2]` and
`[2, 1]`, the code compares the first child pair first and returns `-1`,
while the claimed right-to-left order (last child pair first) gives `1`. -/
theorem C3_compare_counterexample :
    ts_subtree_compare c3_left c3_right = -1 ∧
    subtree_compare_lex true c3_left c3_right = 1 := by
  constructor
  · simp [ts_subtree_compare, ts_subtree_compare_loop, compare_root, c3_left,
      c3_right, ts_subtree_symbol, ts_subtree_children, ts_subtree_child_count,
      testInlineLeaf, c3_heap_fields]
  · simp [subtree_compare_lex, subtree_compare_lex_list, compare_root, c3_left,
      c3_right, ts_subtree_symbol, ts_subtree_children, ts_subtree_child_count,
      testInlineLeaf, c3_heap_fields]

end TreeSitter
